import Mathlib

/-!
A shallow embedding of the vizeval Python SDK (src/vizeval), covering the
pieces the specification talks about: the data model (`models.py`), the
evaluator registry (`evaluators.py`), the evaluation client's input
validation (`client.py`), and the quality-gated retry orchestrator
(`openai_wrapper.py`, `CompletionsWrapper`).

Modelling conventions:
* Python floats are modelled as `ℚ`; all the code does with them is compare,
  add fixed decimal steps and take `min`/`max`, so rational arithmetic is a
  faithful model of the quantities involved.
* The provider (OpenAI) call and the evaluator network call are opaque
  external collaborators.  Each loop iteration's interaction with them is
  abstracted by an oracle `Nat → AttemptOutcome`: either both calls succeed,
  yielding the evaluator's score/feedback and the extracted response text, or
  the iteration raises (provider or evaluator exception).  The raw provider
  response object is modelled by the iteration index that produced it
  together with its extracted text content.
* Fallible code paths return an explicit `error` alternative in place of a
  raised Python exception.
-/

/-- A chat message: one entry of the `messages` kwarg (a dict with `role` and
`content` keys in the source). -/
structure Msg where
  role : String
  content : String
deriving DecidableEq

/-- `models.EvaluationResponse`: evaluator name, optional score, optional
feedback. -/
structure EvaluationResponse where
  evaluator : String
  score : Option ℚ
  feedback : Option String
deriving DecidableEq

/-- `EvaluationResponse.is_success`: the score is present. -/
def EvaluationResponse.is_success (e : EvaluationResponse) : Bool :=
  e.score.isSome

/-- `EvaluationResponse.passed_threshold(threshold)`: score present and at
least `threshold` (the Python default for `threshold` is 0.8; here the
argument is always explicit). -/
def EvaluationResponse.passed_threshold (e : EvaluationResponse) (threshold : ℚ) : Bool :=
  match e.score with
  | some s => decide (threshold ≤ s)
  | none => false

/-- The raw provider (OpenAI) response, opaque to the orchestrator except for
its extracted message content.  `iteration` records which loop iteration
produced it, so that distinct responses are distinct values. -/
structure ProviderResponse where
  iteration : Nat
  content : String
deriving DecidableEq

/-- `models.RetryAttempt`: the record appended to `attempts` once per
successful generation+evaluation round. -/
structure RetryAttempt where
  attempt_number : Nat
  score : Option ℚ
  feedback : Option String
  openai_response : ProviderResponse
  evaluation_response : EvaluationResponse
deriving DecidableEq

/-- `models.VizevalConfig`.  `max_retries` is a `Nat` because
`__post_init__` rejects negative values at construction time; `threshold`
bounds are likewise checked at construction and are not needed by the loop
itself. -/
structure VizevalConfig where
  api_key : String
  evaluator : String
  threshold : ℚ
  max_retries : Nat
  async_mode : Bool
  metadata : List (String × String)
deriving DecidableEq

/-- `models.VizevalResult`. -/
structure VizevalResult where
  final_response : ProviderResponse
  final_evaluation : EvaluationResponse
  attempts : List RetryAttempt
  config : VizevalConfig
deriving DecidableEq

/-- `VizevalResult.total_attempts`. -/
def VizevalResult.total_attempts (r : VizevalResult) : Nat :=
  r.attempts.length

/-- `VizevalResult.passed_threshold` as the source actually computes it: the
body is `return self.final_evaluation.passed_threshold`, which does NOT call
the method — it returns the bound method object itself, and a bound method is
always truthy in Python.  Its truth value is therefore `true` regardless of
the score or the configured threshold. -/
def VizevalResult.passed_threshold_truthy (_r : VizevalResult) : Bool :=
  true

/-- The threshold-pass flag as the specification describes it (a boolean
equal to: the final evaluation's score is non-null and at least the
configured threshold).  Kept separate from `passed_threshold_truthy` so the
two can be compared. -/
def VizevalResult.passed_threshold_spec (r : VizevalResult) : Bool :=
  r.final_evaluation.passed_threshold r.config.threshold

/-- `VizevalResult.best_score`: max of the non-null attempt scores, absent if
there are none. -/
def VizevalResult.best_score (r : VizevalResult) : Option ℚ :=
  (r.attempts.filterMap (·.score)).max?

/-- The sampling-parameter kwargs the retry loop reads and rewrites,
alongside the conversation.  A key absent from the Python kwargs dict is
`none`. -/
@[ext]
structure Kwargs where
  messages : List Msg
  temperature : Option ℚ
  top_p : Option ℚ
deriving DecidableEq

/-- `CompletionsWrapper._adjust_parameters_for_retry`: raise `temperature`
(defaulting to 0.7 when absent) by 0.1 clamped to 0.9 when it is below 0.9;
raise `top_p`, only when present, by 0.05 clamped to 0.95 when it is below
0.95.  The `attempt` argument is unused, as in the source. -/
def adjust_parameters_for_retry (kwargs : Kwargs) (_attempt : Nat) : Kwargs :=
  let current_temp := kwargs.temperature.getD (7/10)
  let k1 :=
    if current_temp < 9/10 then
      { kwargs with temperature := some (min (9/10) (current_temp + 1/10)) }
    else kwargs
  match kwargs.top_p with
  | some current_top_p =>
    if current_top_p < 19/20 then
      { k1 with top_p := some (min (19/20) (current_top_p + 1/20)) }
    else k1
  | none => k1

/-- The content of the corrective `system` message appended before a retry.
The source computes a `score_str` variable from the evaluation score, but the
message literal is NOT an f-string, so no interpolation happens: the adjacent
string literals concatenate to one constant containing the verbatim
placeholder text `\x7bscore_str\x7d`, independent of the score.  (`\x7b` and
`\x7d` are the brace characters.) -/
def critique_content (_score : Option ℚ) : String :=
  "Sua última resposta foi reprovada pela avaliação de qualidade médica.Considerando o score \x7bscore_str\x7d, reescreva a resposta anterior para melhorar a qualidade médica."

/-- The continue transition of the retry loop (`openai_wrapper.py` lines
217-243): extend the conversation with the failing assistant answer and the
corrective system message, then adjust the sampling parameters. -/
def next_kwargs (kwargs : Kwargs) (llm_response : String) (score : Option ℚ) (attempt : Nat) :
    Kwargs :=
  let assistant_msg : Msg := ⟨"assistant", llm_response⟩
  let critique_msg : Msg := ⟨"system", critique_content score⟩
  adjust_parameters_for_retry
    { kwargs with messages := kwargs.messages ++ [assistant_msg, critique_msg] }
    (attempt + 1)

/-- What one loop iteration's interaction with the provider and the evaluator
produces: either an extracted response text plus its evaluation
(score/feedback), or an exception raised by either call. -/
inductive AttemptOutcome where
  | ok (score : Option ℚ) (feedback : Option String) (content : String)
  | err (msg : String)
deriving DecidableEq

/-- The mutable local state of `_create_with_vizeval_retry`. -/
structure LoopState where
  attempts : List RetryAttempt
  best_response : Option ProviderResponse
  best_evaluation : Option EvaluationResponse
  best_score : ℚ
  kwargs : Kwargs
deriving DecidableEq

/-- Outcome of the retry loop: a `VizevalResult`, or a raised
`VizevalOpenAIError` carrying its message. -/
inductive RunOutcome where
  | result (r : VizevalResult)
  | error (msg : String)
deriving DecidableEq

/-- The loop's threshold test: `score is not None and score >= threshold`. -/
def scoreMeets (score : Option ℚ) (threshold : ℚ) : Bool :=
  match score with
  | some s => decide (threshold ≤ s)
  | none => false

/-- Best-result bookkeeping (`openai_wrapper.py` lines 211-215):
`score is not None and score > best_score`. -/
def updateBest (st : LoopState) (score : Option ℚ) (response : ProviderResponse)
    (evaluation : EvaluationResponse) : LoopState :=
  match score with
  | some s =>
    if st.best_score < s then
      { st with best_score := s, best_response := some response,
                best_evaluation := some evaluation }
    else st
  | none => st

/-- The code after the `for` loop (`openai_wrapper.py` lines 257-268): raise
if there is no best response, otherwise return the best response/evaluation
with the accumulated attempts. -/
def finishLoop (config : VizevalConfig) (st : LoopState) : RunOutcome :=
  match st.best_response, st.best_evaluation with
  | some resp, some ev => .result ⟨resp, ev, st.attempts, config⟩
  | _, _ => .error "Não foi possível obter nenhuma resposta válida"

/-- The body of `for attempt in range(config.max_retries + 1)`, written with
explicit fuel.  `create_with_vizeval_retry` always supplies
`fuel = config.max_retries + 1 - attempt`, so running out of fuel coincides
with the `for` loop finishing.  Each iteration consults the oracle: on `ok`
the attempt is recorded, the threshold checked, the best updated and (when
more attempts remain) the request mutated; on `err` the source's `except`
block runs (break with a best, raise on the last attempt, otherwise fall
through to the next iteration). -/
def loopGo (config : VizevalConfig) (oracle : Nat → AttemptOutcome) :
    Nat → Nat → LoopState → RunOutcome
  | 0, _, st => finishLoop config st
  | fuel + 1, attempt, st =>
    match oracle attempt with
    | .err msg =>
      if st.best_response.isSome then finishLoop config st
      else if attempt == config.max_retries then
        .error ("Todas as tentativas falharam: " ++ msg)
      else loopGo config oracle fuel (attempt + 1) st
    | .ok score feedback content =>
      let evaluation : EvaluationResponse := ⟨config.evaluator, score, feedback⟩
      let response : ProviderResponse := ⟨attempt, content⟩
      let retry_attempt : RetryAttempt :=
        ⟨attempt + 1, score, feedback, response, evaluation⟩
      let st1 := { st with attempts := st.attempts ++ [retry_attempt] }
      if scoreMeets score config.threshold then
        .result ⟨response, evaluation, st1.attempts, config⟩
      else
        let st2 := updateBest st1 score response evaluation
        let st3 :=
          if attempt < config.max_retries then
            { st2 with kwargs := next_kwargs st2.kwargs content score attempt }
          else st2
        loopGo config oracle fuel (attempt + 1) st3

/-- `CompletionsWrapper._create_with_vizeval_retry`. -/
def create_with_vizeval_retry (config : VizevalConfig) (oracle : Nat → AttemptOutcome)
    (kwargs : Kwargs) : RunOutcome :=
  loopGo config oracle (config.max_retries + 1) 0 ⟨[], none, none, 0, kwargs⟩

/-- The value found under the `messages` key of the raw kwargs dict: a list
of messages, or some non-list Python value. -/
inductive JMessages where
  | list (ms : List Msg)
  | other
deriving DecidableEq

/-- The kwargs of a `create` call before validation: the `messages` key may
be absent, or hold a non-list value. -/
structure CreateKwargs where
  messages : Option JMessages
  temperature : Option ℚ
  top_p : Option ℚ
deriving DecidableEq

/-- `CompletionsWrapper._is_evaluable_call`: `messages` must be present, be a
non-empty list, and contain at least one message with role `user`.  (In the
source, a falsy non-list value is rejected by `not messages` and a truthy
non-list value by `not isinstance(messages, list)`; both land in the same
`False`.) -/
def is_evaluable_call (kwargs : CreateKwargs) : Bool :=
  match kwargs.messages with
  | none => false
  | some .other => false
  | some (.list ms) => !ms.isEmpty && ms.any (fun m => m.role == "user")

/-- The value returned by `CompletionsWrapper.create`: either the raw
provider completion (delegation path) or a `VizevalResult`/error from the
retry loop. -/
inductive CreateOutput where
  | raw (completion : String)
  | vizeval (outcome : RunOutcome)
deriving DecidableEq

/-- `CompletionsWrapper.create`: with no Vizeval configuration, or a call
that is not evaluable, delegate once to the underlying provider (modelled by
the `provider` function) and return the raw completion; otherwise run the
retry loop.  The final catch-all `.raw` branch is unreachable because
`is_evaluable_call` guarantees `messages` holds a list. -/
def create (vizeval_config : Option VizevalConfig) (provider : CreateKwargs → String)
    (oracle : Nat → AttemptOutcome) (kwargs : CreateKwargs) : CreateOutput :=
  match vizeval_config with
  | none => .raw (provider kwargs)
  | some config =>
    if !is_evaluable_call kwargs then .raw (provider kwargs)
    else
      match kwargs.messages with
      | some (.list ms) =>
        .vizeval (create_with_vizeval_retry config oracle
          ⟨ms, kwargs.temperature, kwargs.top_p⟩)
      | _ => .raw (provider kwargs)

/-- `evaluators.AVAILABLE_EVALUATORS`: the values of the `Evaluator` enum. -/
def AVAILABLE_EVALUATORS : List String :=
  ["medical", "juridical", "dummy"]

/-- `evaluators.validate_evaluator`. -/
def validate_evaluator (evaluator : String) : Bool :=
  AVAILABLE_EVALUATORS.contains evaluator

/-- `models.EvaluationRequest`: the request body handed to the network layer
(`_make_evaluation_request`). -/
structure EvaluationRequest where
  system_prompt : String
  user_prompt : String
  response : String
  evaluator : String
  metadata : List (String × String)
  api_key : String
  async_mode : Bool
deriving DecidableEq

/-- `VizevalClient.evaluate` up to the network boundary: validate the
evaluator kind first and raise `VizevalConfigError` on failure; only on
success build the `EvaluationRequest` that would then be posted by
`_make_evaluation_request`.  Returning `.ok` with the built request models
"the network request is issued with this body". -/
def clientEvaluate (api_key system_prompt user_prompt response evaluator : String)
    (metadata : List (String × String)) (async_mode : Bool) :
    Except String EvaluationRequest :=
  if !validate_evaluator evaluator then
    .error ("Evaluator \x27" ++ evaluator ++ "\x27 não é válido")
  else
    .ok ⟨system_prompt, user_prompt, response, evaluator, metadata, api_key, async_mode⟩

/-! ## Proof-layer definitions

Pure recomputations and projections used to state and prove properties of
the embedding; they introduce no behaviour of their own. -/

/-- One step of the best-result bookkeeping, as a pure function of the
running `(best_response, best_evaluation, best_score)` triple and the attempt
record just appended.  Mirrors `updateBest`. -/
def bestStep (b : Option ProviderResponse × Option EvaluationResponse × ℚ)
    (a : RetryAttempt) : Option ProviderResponse × Option EvaluationResponse × ℚ :=
  match a.score with
  | some s =>
    if b.2.2 < s then (some a.openai_response, some a.evaluation_response, s) else b
  | none => b

/-- The best triple recomputed from scratch over a list of attempt records,
starting from the loop's initial values `(None, None, 0.0)`. -/
def bestFold (l : List RetryAttempt) :
    Option ProviderResponse × Option EvaluationResponse × ℚ :=
  l.foldl bestStep (none, none, 0)

/-- The temperature value the adjustment reads: the kwarg when present, the
source's `kwargs.get("temperature", 0.7)` default otherwise. -/
def tval (k : Kwargs) : ℚ :=
  k.temperature.getD (7/10)

/-- The temperature update as a pure function on the read value. -/
def stepTemp (t : ℚ) : ℚ :=
  if t < 9/10 then min (9/10) (t + 1/10) else t

/-- The `top_p` update as a pure function on the present value. -/
def stepTop (p : ℚ) : ℚ :=
  if p < 19/20 then min (19/20) (p + 1/20) else p

/-- The parameter adjustment with the (unused) attempt argument fixed, for
talking about repeated application. -/
def adjustIter (attempt : Nat) : Kwargs → Kwargs :=
  fun k => adjust_parameters_for_retry k attempt

/-- Invariant: the loop's three best-tracking variables agree with the
recomputation `bestFold` over the recorded attempts. -/
def bestEq (st : LoopState) : Prop :=
  bestFold st.attempts = (st.best_response, st.best_evaluation, st.best_score)

/-- The state the loop passes to the next iteration on a continue transition
(record the attempt, update the best, and mutate the request when more
attempts remain); the ok-branch of `loopGo` reduces to it. -/
def contState (config : VizevalConfig) (st : LoopState) (attempt : Nat) (score : Option ℚ)
    (feedback : Option String) (content : String) : LoopState :=
  let st2 := updateBest
    { st with attempts := st.attempts ++ [⟨attempt + 1, score, feedback, ⟨attempt, content⟩,
      ⟨config.evaluator, score, feedback⟩⟩] }
    score ⟨attempt, content⟩ ⟨config.evaluator, score, feedback⟩
  if attempt < config.max_retries then
    { st2 with kwargs := next_kwargs st2.kwargs content score attempt }
  else st2

/-- Oracle of a run with scores 0.5 then 0.6 on every later attempt. -/
def c1wOracle : Nat → AttemptOutcome := fun i =>
  if i = 0 then .ok (some (1/2)) none "a" else .ok (some (3/5)) none "b"

/-- Oracle of a run with score 0.5 then 0.85 on every later attempt. -/
def c2wOracle : Nat → AttemptOutcome := fun i =>
  if i = 0 then .ok (some (1/2)) none "a" else .ok (some (17/20)) none "b"

/-- The evaluator set as the specification's words claim it
({medical, juridical, dummy-test}), for comparison with
`AVAILABLE_EVALUATORS` from the source. -/
def spec_claimed_evaluators : List String :=
  ["medical", "juridical", "dummy-test"]

/-- Projection: the attempt numbers recorded in a run outcome. -/
def RunOutcome.attemptNums : RunOutcome → List Nat
  | .result r => r.attempts.map RetryAttempt.attempt_number
  | .error _ => []

/-- Projection: the truthiness of `passed_threshold` as the source computes
it, when the run produced a result. -/
def RunOutcome.passedTruthy? : RunOutcome → Option Bool
  | .result r => some r.passed_threshold_truthy
  | .error _ => none

/-- Projection: the threshold-pass flag as the specification describes it,
when the run produced a result. -/
def RunOutcome.passedSpec? : RunOutcome → Option Bool
  | .result r => some r.passed_threshold_spec
  | .error _ => none

/-- Projection: the final evaluation's score, when the run produced a
result. -/
def RunOutcome.finalScore? : RunOutcome → Option (Option ℚ)
  | .result r => some r.final_evaluation.score
  | .error _ => none

/-- Projection: the number of recorded attempts, when the run produced a
result. -/
def RunOutcome.totalAttempts? : RunOutcome → Option Nat
  | .result r => some r.total_attempts
  | .error _ => none

/-- Scenario B of the specification: threshold 0.95, `max_retries` 2,
attempt scores 0.5, 0.6, 0.7. -/
def scenarioB_config : VizevalConfig :=
  ⟨"key", "medical", 19/20, 2, false, []⟩

/-- The oracle realising Scenario B's three attempt scores. -/
def scenarioB_oracle : Nat → AttemptOutcome := fun i =>
  if i = 0 then .ok (some (1/2)) none "r1"
  else if i = 1 then .ok (some (3/5)) none "r2"
  else .ok (some (7/10)) none "r3"

/-- A single user message, the minimal evaluable conversation. -/
def oneUserMsg : Kwargs :=
  ⟨[⟨"user", "q"⟩], none, none⟩

/-- The run of Scenario B. -/
def scenarioB_run : RunOutcome :=
  create_with_vizeval_retry scenarioB_config scenarioB_oracle oneUserMsg

/-- A run whose only attempt has the non-null score 0.0 (below the 0.8
threshold), with `max_retries = 0`. -/
def zeroScore_run : RunOutcome :=
  create_with_vizeval_retry ⟨"key", "medical", 4/5, 0, false, []⟩
    (fun _ => .ok (some 0) none "a") oneUserMsg

/-- A run in which iteration 0 scores 0.0, iteration 1 raises with no best
recorded yet (so the loop falls through to the next iteration), and
iteration 2 scores 0.5; `max_retries = 2`, threshold 0.8. -/
def gapRun : RunOutcome :=
  create_with_vizeval_retry ⟨"key", "medical", 4/5, 2, false, []⟩
    (fun i =>
      if i = 0 then .ok (some 0) none "a"
      else if i = 1 then .err "evaluator down"
      else .ok (some (1/2)) none "b")
    oneUserMsg

/-! ## Helper lemmas -/

theorem adjust_messages (k : Kwargs) (a : Nat) :
    (adjust_parameters_for_retry k a).messages = k.messages := by
  obtain ⟨ms, t, tp⟩ := k
  cases tp <;> cases t <;>
    · dsimp only [adjust_parameters_for_retry]
      split_ifs <;> first | rfl | (norm_num at *)

theorem adjust_temperature (k : Kwargs) (a : Nat) :
    (adjust_parameters_for_retry k a).temperature = some (stepTemp (tval k)) := by
  obtain ⟨ms, t, tp⟩ := k
  cases tp <;> cases t <;>
    · dsimp only [adjust_parameters_for_retry, stepTemp, tval, Option.getD]
      split_ifs <;> first | rfl | (norm_num at *) | (exfalso; linarith)

theorem adjust_top_p (k : Kwargs) (a : Nat) :
    (adjust_parameters_for_retry k a).top_p = k.top_p.map stepTop := by
  obtain ⟨ms, t, tp⟩ := k
  cases tp <;> cases t <;>
    · dsimp only [adjust_parameters_for_retry, stepTop, Option.map, Option.getD]
      split_ifs <;> first | rfl | (norm_num at *) | (exfalso; linarith)

/-! ## Claim theorems (first batch) -/

/-- C6: for every continue transition of the retry loop, the previous
attempt's message list is a prefix of the next attempt's message list; the
conversation is extended by exactly an assistant message (the failing
response) and a system message (the corrective feedback), never truncated or
reordered. -/
theorem c6_conversation_prefix (kwargs : Kwargs) (llm_response : String) (score : Option ℚ)
    (attempt : Nat) :
    kwargs.messages <+: (next_kwargs kwargs llm_response score attempt).messages ∧
    (next_kwargs kwargs llm_response score attempt).messages =
      kwargs.messages ++ [⟨"assistant", llm_response⟩, ⟨"system", critique_content score⟩] := by
  have h : (next_kwargs kwargs llm_response score attempt).messages =
      kwargs.messages ++ [⟨"assistant", llm_response⟩, ⟨"system", critique_content score⟩] := by
    unfold next_kwargs
    rw [adjust_messages]
  exact ⟨⟨_, h.symm⟩, h⟩

/-- C7 (code bug): the corrective system message does NOT reference the
obtained score.  Its content is one constant string — identical for score 0.5
and for a null score — containing the verbatim placeholder text
`\x7bscore_str\x7d` instead of the formatted score, because the source
computes `score_str` but builds the message from a non-f-string literal. -/
theorem c7_critique_ignores_score :
    critique_content (some (1/2)) = critique_content none ∧
    critique_content (some (1/2)) =
      "Sua última resposta foi reprovada pela avaliação de qualidade médica.Considerando o score \x7bscore_str\x7d, reescreva a resposta anterior para melhorar a qualidade médica." :=
  ⟨rfl, rfl⟩

/-- C8 counterexample: the accepted evaluator kind `dummy` is not in the
claimed set {medical, juridical, dummy-test}, and the claimed member
`dummy-test` is rejected by the code. -/
theorem c8_counterexample :
    validate_evaluator "dummy" = true ∧ "dummy" ∉ spec_claimed_evaluators ∧
    validate_evaluator "dummy-test" = false ∧ "dummy-test" ∈ spec_claimed_evaluators :=
  ⟨by decide, by decide, by decide, by decide⟩

/-- C8 (amended): the evaluation client's evaluate operation accepts an
evaluator kind iff it belongs to the fixed set {medical, juridical, dummy};
any other kind yields the configuration error before any network request is
built. -/
theorem c8_accepts_iff (api_key system_prompt user_prompt response evaluator : String)
    (metadata : List (String × String)) (async_mode : Bool) :
    ((∃ req, clientEvaluate api_key system_prompt user_prompt response evaluator metadata
        async_mode = .ok req) ↔ evaluator ∈ AVAILABLE_EVALUATORS) ∧
    (validate_evaluator evaluator = false →
      clientEvaluate api_key system_prompt user_prompt response evaluator metadata async_mode =
        .error ("Evaluator \x27" ++ evaluator ++ "\x27 não é válido")) := by
  have hmem : validate_evaluator evaluator = true ↔ evaluator ∈ AVAILABLE_EVALUATORS := by
    unfold validate_evaluator
    exact List.elem_iff
  constructor
  · unfold clientEvaluate
    cases h : validate_evaluator evaluator with
    | true => simp [hmem.mp h]
    | false =>
      simp only [h, Bool.not_false, if_true]
      constructor
      · rintro ⟨req, hreq⟩
        exact absurd hreq (by simp)
      · intro hm
        exact absurd (hmem.mpr hm) (by simp [h])
  · intro h
    unfold clientEvaluate
    rw [h]
    rfl

/-- C8 witness: at the concrete kind `dummy-test` the rejection branch of
`c8_accepts_iff` fires with its hypothesis discharged. -/
theorem c8_accepts_iff_witness :
    clientEvaluate "key" "" "" "" "dummy-test" [] false =
      .error ("Evaluator \x27" ++ "dummy-test" ++ "\x27 não é válido") :=
  (c8_accepts_iff "key" "" "" "" "dummy-test" [] false).2 (by decide)

/-- C10: with no Vizeval configuration, or a non-evaluable call, `create`
delegates once to the provider and returns the raw completion; and a call is
evaluable exactly when the `messages` kwarg holds a non-empty list containing
a message with role `user`. -/
theorem c10_delegates (vizeval_config : Option VizevalConfig)
    (provider : CreateKwargs → String) (oracle : Nat → AttemptOutcome)
    (kwargs : CreateKwargs) :
    (vizeval_config = none →
      create vizeval_config provider oracle kwargs = .raw (provider kwargs)) ∧
    (is_evaluable_call kwargs = false →
      create vizeval_config provider oracle kwargs = .raw (provider kwargs)) ∧
    (is_evaluable_call kwargs = true ↔
      ∃ ms, kwargs.messages = some (.list ms) ∧ ms ≠ [] ∧ ∃ m, m ∈ ms ∧ m.role = "user") := by
  refine ⟨?_, ?_, ?_⟩
  · rintro rfl
    rfl
  · intro h
    cases vizeval_config with
    | none => rfl
    | some config => simp [create, h]
  · unfold is_evaluable_call
    cases hm : kwargs.messages with
    | none => simp
    | some v =>
      cases v with
      | other => simp
      | list ms => simp

/-- C10 witness: concrete delegation runs for the no-configuration path and
for a non-evaluable call (kwargs without a `messages` list). -/
theorem c10_delegates_witness :
    create none (fun _ => "done") (fun _ => .err "e") ⟨none, none, none⟩ = .raw "done" ∧
    create (some ⟨"key", "medical", 4/5, 3, false, []⟩) (fun _ => "done")
      (fun _ => .err "e") ⟨none, none, none⟩ = .raw "done" :=
  ⟨(c10_delegates none (fun _ => "done") (fun _ => .err "e") ⟨none, none, none⟩).1 rfl,
   (c10_delegates (some ⟨"key", "medical", 4/5, 3, false, []⟩) (fun _ => "done")
      (fun _ => .err "e") ⟨none, none, none⟩).2.1 rfl⟩

/-- C3 (code bug, evaluated on Scenario B): the run with threshold 0.95 and
scores 0.5, 0.6, 0.7 ends with `final_evaluation.score = 0.7` over 3
attempts; the specification's threshold-pass flag is `false`, but the flag
the source computes — the truthiness of the uncalled bound method — is
`true`. -/
theorem c3_passed_threshold_code_bug :
    scenarioB_run.passedTruthy? = some true ∧
    scenarioB_run.passedSpec? = some false ∧
    scenarioB_run.finalScore? = some (some (7/10)) ∧
    scenarioB_run.totalAttempts? = some 3 := by
  norm_num [scenarioB_run, scenarioB_config, scenarioB_oracle, oneUserMsg,
    create_with_vizeval_retry, loopGo, scoreMeets, updateBest, finishLoop, next_kwargs,
    adjust_parameters_for_retry, min_def, RunOutcome.passedTruthy?, RunOutcome.passedSpec?,
    RunOutcome.finalScore?, RunOutcome.totalAttempts?, VizevalResult.passed_threshold_truthy,
    VizevalResult.passed_threshold_spec, VizevalResult.total_attempts,
    EvaluationResponse.passed_threshold]

/-- C9 counterexample: in `gapRun`, iteration 1 raises while no best exists
yet and the loop continues, so the recorded attempt numbers are [1, 3] — not
the gap-free [1, 2] the claim requires (`attempts[1].attempt_number = 3 ≠
2`). -/
theorem c9_counterexample : gapRun.attemptNums = [1, 3] := by
  norm_num [gapRun, oneUserMsg, create_with_vizeval_retry, loopGo, scoreMeets, updateBest,
    finishLoop, next_kwargs, adjust_parameters_for_retry, min_def, RunOutcome.attemptNums]

/-- C1 counterexample: a run whose single attempt has the non-null score 0.0
(below the threshold) raises the no-valid-response error instead of returning
a result, because the best-tracking starts at 0.0 and only strictly greater
scores are retained. -/
theorem c1_counterexample :
    zeroScore_run = .error "Não foi possível obter nenhuma resposta válida" := by
  norm_num [zeroScore_run, oneUserMsg, create_with_vizeval_retry, loopGo, scoreMeets,
    updateBest, finishLoop, next_kwargs, adjust_parameters_for_retry, min_def]

/-! ## The parameter-adjustment policy (C5) -/

theorem stepTemp_ge (t : ℚ) : t ≤ stepTemp t := by
  unfold stepTemp
  split_ifs with h
  · exact le_min (le_of_lt h) (by linarith)
  · exact le_refl t

theorem stepTemp_le_max (t : ℚ) : stepTemp t ≤ max t (9/10) := by
  unfold stepTemp
  split_ifs with h
  · exact le_max_of_le_right (min_le_left _ _)
  · exact le_max_left _ _

theorem stepTemp_fixed (t : ℚ) (h : 9/10 ≤ t) : stepTemp t = t := by
  unfold stepTemp
  rw [if_neg (not_lt.mpr h)]

theorem stepTop_ge (p : ℚ) : p ≤ stepTop p := by
  unfold stepTop
  split_ifs with h
  · exact le_min (le_of_lt h) (by linarith)
  · exact le_refl p

theorem stepTop_le_max (p : ℚ) : stepTop p ≤ max p (19/20) := by
  unfold stepTop
  split_ifs with h
  · exact le_max_of_le_right (min_le_left _ _)
  · exact le_max_left _ _

theorem stepTop_fixed (p : ℚ) (h : 19/20 ≤ p) : stepTop p = p := by
  unfold stepTop
  rw [if_neg (not_lt.mpr h)]

theorem stepTemp_reach (n : Nat) : ∀ t : ℚ, 9/10 ≤ t + n * (1/10) → 9/10 ≤ stepTemp^[n] t := by
  induction n with
  | zero => intro t h; simpa using h
  | succ m ih =>
    intro t h
    rw [Function.iterate_succ_apply]
    rcases lt_or_le t (9/10) with ht | ht
    · rcases le_or_lt (9/10) (t + 1/10) with ht2 | ht2
      · have hst : stepTemp t = 9/10 := by
          unfold stepTemp
          rw [if_pos ht, min_eq_left ht2]
        apply ih
        have hm : (0:ℚ) ≤ m * (1/10) := by positivity
        rw [hst]
        linarith
      · have hst : stepTemp t = t + 1/10 := by
          unfold stepTemp
          rw [if_pos ht, min_eq_right (le_of_lt ht2)]
        apply ih
        rw [hst]
        push_cast at h ⊢
        linarith
    · apply ih
      have hm : (0:ℚ) ≤ m * (1/10) := by positivity
      rw [stepTemp_fixed t ht]
      linarith

theorem stepTop_reach (n : Nat) : ∀ p : ℚ, 19/20 ≤ p + n * (1/20) → 19/20 ≤ stepTop^[n] p := by
  induction n with
  | zero => intro p h; simpa using h
  | succ m ih =>
    intro p h
    rw [Function.iterate_succ_apply]
    rcases lt_or_le p (19/20) with hp | hp
    · rcases le_or_lt (19/20) (p + 1/20) with hp2 | hp2
      · have hst : stepTop p = 19/20 := by
          unfold stepTop
          rw [if_pos hp, min_eq_left hp2]
        apply ih
        have hm : (0:ℚ) ≤ m * (1/20) := by positivity
        rw [hst]
        linarith
      · have hst : stepTop p = p + 1/20 := by
          unfold stepTop
          rw [if_pos hp, min_eq_right (le_of_lt hp2)]
        apply ih
        rw [hst]
        push_cast at h ⊢
        linarith
    · apply ih
      have hm : (0:ℚ) ≤ m * (1/20) := by positivity
      rw [stepTop_fixed p hp]
      linarith

theorem stepTemp_stable (t : ℚ) : ∃ n, ∀ m, n ≤ m → stepTemp^[m + 1] t = stepTemp^[m] t := by
  obtain ⟨n, hn⟩ := exists_nat_ge ((9/10 - t) * 10)
  refine ⟨n, fun m hm => ?_⟩
  have hcast : (n : ℚ) ≤ m := Nat.cast_le.mpr hm
  have hreach : 9/10 ≤ stepTemp^[m] t := by
    apply stepTemp_reach
    have : (9/10 - t) * 10 ≤ (m : ℚ) := le_trans hn hcast
    linarith
  rw [Function.iterate_succ_apply', stepTemp_fixed _ hreach]

theorem stepTop_stable (p : ℚ) : ∃ n, ∀ m, n ≤ m → stepTop^[m + 1] p = stepTop^[m] p := by
  obtain ⟨n, hn⟩ := exists_nat_ge ((19/20 - p) * 20)
  refine ⟨n, fun m hm => ?_⟩
  have hcast : (n : ℚ) ≤ m := Nat.cast_le.mpr hm
  have hreach : 19/20 ≤ stepTop^[m] p := by
    apply stepTop_reach
    have : (19/20 - p) * 20 ≤ (m : ℚ) := le_trans hn hcast
    linarith
  rw [Function.iterate_succ_apply', stepTop_fixed _ hreach]

theorem adjustIter_tval (attempt : Nat) (k : Kwargs) (n : Nat) :
    tval ((adjustIter attempt)^[n] k) = stepTemp^[n] (tval k) := by
  induction n with
  | zero => rfl
  | succ m ih =>
    rw [Function.iterate_succ_apply', Function.iterate_succ_apply']
    show tval (adjust_parameters_for_retry ((adjustIter attempt)^[m] k) attempt) = _
    rw [tval, adjust_temperature, Option.getD_some, ih]

theorem adjustIter_temperature (attempt : Nat) (k : Kwargs) (n : Nat) :
    ((adjustIter attempt)^[n + 1] k).temperature = some (stepTemp^[n + 1] (tval k)) := by
  rw [Function.iterate_succ_apply']
  show (adjust_parameters_for_retry ((adjustIter attempt)^[n] k) attempt).temperature = _
  rw [adjust_temperature, adjustIter_tval, Function.iterate_succ_apply']

theorem adjustIter_top_p (attempt : Nat) (k : Kwargs) (n : Nat) :
    ((adjustIter attempt)^[n] k).top_p = k.top_p.map (stepTop^[n]) := by
  induction n with
  | zero =>
    rw [Function.iterate_zero, Function.iterate_zero, Option.map_id]
    rfl
  | succ m ih =>
    rw [Function.iterate_succ_apply']
    show (adjust_parameters_for_retry ((adjustIter attempt)^[m] k) attempt).top_p = _
    rw [adjust_top_p, ih, Option.map_map, ← Function.iterate_succ']

theorem adjustIter_messages (attempt : Nat) (k : Kwargs) (n : Nat) :
    ((adjustIter attempt)^[n] k).messages = k.messages := by
  induction n with
  | zero => rfl
  | succ m ih =>
    rw [Function.iterate_succ_apply']
    show (adjust_parameters_for_retry ((adjustIter attempt)^[m] k) attempt).messages = _
    rw [adjust_messages, ih]

/-- C5: the per-retry sampling-parameter adjustment never decreases
`temperature` or `top_p`, never raises them above 0.9 / 0.95, leaves each
unchanged when it is already at or above its bound, and repeated application
converges: some iterate is a fixed point, after which nothing changes. -/
theorem c5_adjust_monotone_bounded (k : Kwargs) (attempt attempt2 : Nat) :
    (∀ t, k.temperature = some t →
      ∃ u, (adjust_parameters_for_retry k attempt).temperature = some u ∧
        t ≤ u ∧ u ≤ max t (9/10)) ∧
    (∀ p, k.top_p = some p →
      ∃ q, (adjust_parameters_for_retry k attempt).top_p = some q ∧
        p ≤ q ∧ q ≤ max p (19/20)) ∧
    (∀ t, k.temperature = some t → 9/10 ≤ t →
      (adjust_parameters_for_retry k attempt).temperature = some t) ∧
    (∀ p, k.top_p = some p → 19/20 ≤ p →
      (adjust_parameters_for_retry k attempt).top_p = some p) ∧
    (∃ n, (adjustIter attempt2)^[n + 1] k = (adjustIter attempt2)^[n] k) := by
  refine ⟨?_, ?_, ?_, ?_, ?_⟩
  · intro t ht
    refine ⟨stepTemp (tval k), adjust_temperature k attempt, ?_, ?_⟩
    · rw [tval, ht, Option.getD_some]
      exact stepTemp_ge t
    · rw [tval, ht, Option.getD_some]
      exact stepTemp_le_max t
  · intro p hp
    refine ⟨stepTop p, ?_, stepTop_ge p, stepTop_le_max p⟩
    rw [adjust_top_p, hp]
    rfl
  · intro t ht hbound
    rw [adjust_temperature, tval, ht, Option.getD_some, stepTemp_fixed t hbound]
  · intro p hp hbound
    rw [adjust_top_p, hp]
    show some (stepTop p) = some p
    rw [stepTop_fixed p hbound]
  · obtain ⟨n1, h1⟩ := stepTemp_stable (tval k)
    cases htp : k.top_p with
    | none =>
      refine ⟨n1 + 1, Kwargs.ext ?_ ?_ ?_⟩
      · rw [adjustIter_messages, adjustIter_messages]
      · rw [adjustIter_temperature, adjustIter_temperature, h1 (n1 + 1) (Nat.le_succ n1)]
      · rw [adjustIter_top_p, adjustIter_top_p, htp]
        rfl
    | some p =>
      obtain ⟨n2, h2⟩ := stepTop_stable p
      refine ⟨n1 + n2 + 1, Kwargs.ext ?_ ?_ ?_⟩
      · rw [adjustIter_messages, adjustIter_messages]
      · rw [adjustIter_temperature, adjustIter_temperature,
          h1 (n1 + n2 + 1) (by omega)]
      · rw [adjustIter_top_p, adjustIter_top_p, htp]
        show some (stepTop^[n1 + n2 + 1 + 1] p) = some (stepTop^[n1 + n2 + 1] p)
        rw [h2 (n1 + n2 + 1) (by omega)]

/-- C5 witness: at a concrete kwargs with temperature 0.5 and top_p already
at its 0.95 bound, the monotone step, the at-bound fixity and the convergence
of `c5_adjust_monotone_bounded` hold with their hypotheses discharged. -/
theorem c5_adjust_witness :
    (∃ u, (adjust_parameters_for_retry ⟨[], some (1/2), some (19/20)⟩ 1).temperature = some u ∧
      1/2 ≤ u ∧ u ≤ max (1/2) (9/10)) ∧
    (adjust_parameters_for_retry ⟨[], some (1/2), some (19/20)⟩ 1).top_p = some (19/20) ∧
    (∃ n, (adjustIter 5)^[n + 1] (⟨[], some (1/2), some (19/20)⟩ : Kwargs) =
      (adjustIter 5)^[n] (⟨[], some (1/2), some (19/20)⟩ : Kwargs)) :=
  ⟨(c5_adjust_monotone_bounded ⟨[], some (1/2), some (19/20)⟩ 1 5).1 (1/2) rfl,
   (c5_adjust_monotone_bounded ⟨[], some (1/2), some (19/20)⟩ 1 5).2.2.2.1 (19/20) rfl
     (le_refl _),
   (c5_adjust_monotone_bounded ⟨[], some (1/2), some (19/20)⟩ 1 5).2.2.2.2⟩

/-! ## Loop equations and the best-tracking invariant (C1) -/

theorem loopGo_zero (config : VizevalConfig) (oracle : Nat → AttemptOutcome)
    (attempt : Nat) (st : LoopState) :
    loopGo config oracle 0 attempt st = finishLoop config st := rfl

theorem loopGo_succ (config : VizevalConfig) (oracle : Nat → AttemptOutcome)
    (fuel attempt : Nat) (st : LoopState) :
    loopGo config oracle (fuel + 1) attempt st =
      match oracle attempt with
      | .err msg =>
        if st.best_response.isSome then finishLoop config st
        else if attempt == config.max_retries then
          .error ("Todas as tentativas falharam: " ++ msg)
        else loopGo config oracle fuel (attempt + 1) st
      | .ok score feedback content =>
        if scoreMeets score config.threshold then
          .result ⟨⟨attempt, content⟩, ⟨config.evaluator, score, feedback⟩,
            st.attempts ++ [⟨attempt + 1, score, feedback, ⟨attempt, content⟩,
              ⟨config.evaluator, score, feedback⟩⟩], config⟩
        else loopGo config oracle fuel (attempt + 1)
          (contState config st attempt score feedback content) := rfl

theorem loopGo_err (config : VizevalConfig) (oracle : Nat → AttemptOutcome)
    (fuel attempt : Nat) (st : LoopState) (msg : String)
    (h : oracle attempt = .err msg) :
    loopGo config oracle (fuel + 1) attempt st =
      if st.best_response.isSome then finishLoop config st
      else if attempt == config.max_retries then
        .error ("Todas as tentativas falharam: " ++ msg)
      else loopGo config oracle fuel (attempt + 1) st := by
  rw [loopGo_succ, h]

theorem loopGo_ok (config : VizevalConfig) (oracle : Nat → AttemptOutcome)
    (fuel attempt : Nat) (st : LoopState) (score : Option ℚ) (feedback : Option String)
    (content : String) (h : oracle attempt = .ok score feedback content) :
    loopGo config oracle (fuel + 1) attempt st =
      if scoreMeets score config.threshold then
        .result ⟨⟨attempt, content⟩, ⟨config.evaluator, score, feedback⟩,
          st.attempts ++ [⟨attempt + 1, score, feedback, ⟨attempt, content⟩,
            ⟨config.evaluator, score, feedback⟩⟩], config⟩
      else loopGo config oracle fuel (attempt + 1)
        (contState config st attempt score feedback content) := by
  rw [loopGo_succ, h]

theorem finishLoop_ok (config : VizevalConfig) (st : LoopState)
    (resp : ProviderResponse) (ev : EvaluationResponse)
    (hbr : st.best_response = some resp) (hbe : st.best_evaluation = some ev) :
    finishLoop config st = .result ⟨resp, ev, st.attempts, config⟩ := by
  unfold finishLoop
  rw [hbr, hbe]

theorem finishLoop_result (config : VizevalConfig) (st : LoopState) (r : VizevalResult)
    (hbest : bestEq st) (h : finishLoop config st = .result r) :
    r.config = config ∧
    ∃ bs, bestFold r.attempts = (some r.final_response, some r.final_evaluation, bs) := by
  unfold finishLoop at h
  cases hbr : st.best_response with
  | none =>
    rw [hbr] at h
    cases hbe : st.best_evaluation <;> rw [hbe] at h <;> exact RunOutcome.noConfusion h
  | some resp =>
    cases hbe : st.best_evaluation with
    | none =>
      rw [hbr, hbe] at h
      exact RunOutcome.noConfusion h
    | some ev =>
      rw [hbr, hbe] at h
      injection h with h2
      subst h2
      refine ⟨rfl, st.best_score, ?_⟩
      unfold bestEq at hbest
      rw [hbr, hbe] at hbest
      exact hbest

theorem updateBest_attempts (st : LoopState) (score : Option ℚ) (response : ProviderResponse)
    (evaluation : EvaluationResponse) :
    (updateBest st score response evaluation).attempts = st.attempts := by
  unfold updateBest
  cases score <;> dsimp only <;> split_ifs <;> rfl

theorem updateBest_best (st : LoopState) (n : Nat) (score : Option ℚ) (fb : Option String)
    (response : ProviderResponse) (evaluation : EvaluationResponse) :
    ((updateBest st score response evaluation).best_response,
     (updateBest st score response evaluation).best_evaluation,
     (updateBest st score response evaluation).best_score) =
      bestStep (st.best_response, st.best_evaluation, st.best_score)
        ⟨n, score, fb, response, evaluation⟩ := by
  unfold updateBest bestStep
  cases score <;> dsimp only <;> split_ifs <;> rfl

theorem bestFold_append (l : List RetryAttempt) (a : RetryAttempt) :
    bestFold (l ++ [a]) = bestStep (bestFold l) a := by
  unfold bestFold
  rw [List.foldl_append]
  rfl

theorem contState_attempts (config : VizevalConfig) (st : LoopState) (attempt : Nat)
    (score : Option ℚ) (feedback : Option String) (content : String) :
    (contState config st attempt score feedback content).attempts =
      st.attempts ++ [⟨attempt + 1, score, feedback, ⟨attempt, content⟩,
        ⟨config.evaluator, score, feedback⟩⟩] := by
  unfold contState
  dsimp only
  split_ifs <;> rw [updateBest_attempts]

theorem contState_bestEq (config : VizevalConfig) (st : LoopState) (attempt : Nat)
    (score : Option ℚ) (feedback : Option String) (content : String) (h : bestEq st) :
    bestEq (contState config st attempt score feedback content) := by
  have key : bestEq (updateBest
      { st with attempts := st.attempts ++ [⟨attempt + 1, score, feedback, ⟨attempt, content⟩,
        ⟨config.evaluator, score, feedback⟩⟩] }
      score ⟨attempt, content⟩ ⟨config.evaluator, score, feedback⟩) := by
    unfold bestEq
    rw [updateBest_attempts,
      updateBest_best _ (attempt + 1) score feedback ⟨attempt, content⟩
        ⟨config.evaluator, score, feedback⟩]
    dsimp only
    rw [bestFold_append]
    unfold bestEq at h
    rw [h]
  unfold contState
  dsimp only
  split_ifs with hc
  · exact key
  · exact key

theorem bestFold_spec (l : List RetryAttempt) :
    (bestFold l = (none, none, 0) ∧ ∀ a ∈ l, ∀ s, a.score = some s → s ≤ 0) ∨
    (∃ l₁ a l₂ s, l = l₁ ++ a :: l₂ ∧
      bestFold l = (some a.openai_response, some a.evaluation_response, s) ∧
      a.score = some s ∧ 0 < s ∧
      (∀ b ∈ l₁, ∀ u, b.score = some u → u < s) ∧
      (∀ b ∈ l₂, ∀ u, b.score = some u → u ≤ s)) := by
  induction l using List.reverseRecOn with
  | nil =>
    left
    exact ⟨rfl, by simp⟩
  | append_singleton l c ih =>
    rcases ih with ⟨hfold, hall⟩ | ⟨l₁, a, l₂, s, hdec, hfold, hsc, hpos, hb, ha⟩
    · cases hc : c.score with
      | none =>
        left
        constructor
        · rw [bestFold_append, hfold]
          simp [bestStep, hc]
        · intro b hbmem u hu
          rcases List.mem_append.mp hbmem with hmem | hmem
          · exact hall b hmem u hu
          · rw [List.mem_singleton.mp hmem] at hu
            rw [hc] at hu
            cases hu
      | some u =>
        rcases le_or_lt u 0 with hle | hgt
        · left
          constructor
          · rw [bestFold_append, hfold]
            simp only [bestStep, hc]
            rw [if_neg (by simpa using not_lt.mpr hle)]
          · intro b hbmem v hv
            rcases List.mem_append.mp hbmem with hmem | hmem
            · exact hall b hmem v hv
            · rw [List.mem_singleton.mp hmem] at hv
              rw [hc] at hv
              injection hv with hv2
              rw [← hv2]
              exact hle
        · right
          refine ⟨l, c, [], u, by simp, ?_, hc, hgt, ?_, by simp⟩
          · rw [bestFold_append, hfold]
            simp only [bestStep, hc]
            rw [if_pos (by simpa using hgt)]
          · intro b hbmem v hv
            exact lt_of_le_of_lt (hall b hbmem v hv) hgt
    · cases hc : c.score with
      | none =>
        right
        refine ⟨l₁, a, l₂ ++ [c], s, by rw [hdec]; simp, ?_, hsc, hpos, hb, ?_⟩
        · rw [bestFold_append, hfold]
          simp [bestStep, hc]
        · intro b hbmem v hv
          rcases List.mem_append.mp hbmem with hmem | hmem
          · exact ha b hmem v hv
          · rw [List.mem_singleton.mp hmem] at hv
            rw [hc] at hv
            cases hv
      | some u =>
        rcases le_or_lt u s with hle | hgt
        · right
          refine ⟨l₁, a, l₂ ++ [c], s, by rw [hdec]; simp, ?_, hsc, hpos, hb, ?_⟩
          · rw [bestFold_append, hfold]
            simp only [bestStep, hc]
            rw [if_neg (by simpa using not_lt.mpr hle)]
          · intro b hbmem v hv
            rcases List.mem_append.mp hbmem with hmem | hmem
            · exact ha b hmem v hv
            · rw [List.mem_singleton.mp hmem] at hv
              rw [hc] at hv
              injection hv with hv2
              rw [← hv2]
              exact hle
        · right
          refine ⟨l₁ ++ a :: l₂, c, [], u, by rw [hdec], ?_, hc, lt_trans hpos hgt, ?_, by simp⟩
          · rw [bestFold_append, hfold]
            simp only [bestStep, hc]
            rw [if_pos (by simpa using hgt)]
          · intro b hbmem v hv
            rcases List.mem_append.mp hbmem with hmem | hmem
            · exact lt_trans (hb b hmem v hv) hgt
            · rcases List.mem_cons.mp hmem with heq | hmem2
              · rw [heq] at hv
                rw [hsc] at hv
                injection hv with hv2
                rw [← hv2]
                exact hgt
              · exact lt_of_le_of_lt (ha b hmem2 v hv) hgt

theorem loopGo_no_meet_result (config : VizevalConfig) (oracle : Nat → AttemptOutcome)
    (hnometa : ∀ i score feedback content, oracle i = .ok score feedback content →
      scoreMeets score config.threshold = false) :
    ∀ fuel attempt st r, bestEq st → loopGo config oracle fuel attempt st = .result r →
      r.config = config ∧
      ∃ bs, bestFold r.attempts = (some r.final_response, some r.final_evaluation, bs) := by
  intro fuel
  induction fuel with
  | zero =>
    intro attempt st r hbest hres
    rw [loopGo_zero] at hres
    exact finishLoop_result config st r hbest hres
  | succ fuel ih =>
    intro attempt st r hbest hres
    cases horacle : oracle attempt with
    | err msg =>
      rw [loopGo_err config oracle fuel attempt st msg horacle] at hres
      by_cases hbr : st.best_response.isSome = true
      · rw [if_pos hbr] at hres
        exact finishLoop_result config st r hbest hres
      · rw [if_neg hbr] at hres
        by_cases hmax : (attempt == config.max_retries) = true
        · rw [if_pos hmax] at hres
          exact RunOutcome.noConfusion hres
        · rw [if_neg hmax] at hres
          exact ih (attempt + 1) st r hbest hres
    | ok score feedback content =>
      rw [loopGo_ok config oracle fuel attempt st score feedback content horacle,
        hnometa attempt score feedback content horacle] at hres
      simp only [Bool.false_eq_true, if_false] at hres
      exact ih (attempt + 1) _ r
        (contState_bestEq config st attempt score feedback content hbest) hres

/-- C1 (amended): in a run in which no attempt's score meets the threshold,
whenever the orchestrator returns a result, its `final_response` and
`final_evaluation` are those of the earliest recorded attempt whose score is
maximal among all recorded non-null scores, and that maximal score is
strictly positive (a run whose non-null scores are all ≤ 0 raises instead —
see the counterexample). -/
theorem c1_best_selection (config : VizevalConfig) (oracle : Nat → AttemptOutcome)
    (kwargs : Kwargs) (r : VizevalResult)
    (hnometa : ∀ i score feedback content, oracle i = .ok score feedback content →
      scoreMeets score config.threshold = false)
    (hres : create_with_vizeval_retry config oracle kwargs = .result r) :
    ∃ l₁ a l₂ s, r.attempts = l₁ ++ a :: l₂ ∧
      r.final_response = a.openai_response ∧
      r.final_evaluation = a.evaluation_response ∧
      a.score = some s ∧ 0 < s ∧
      (∀ b ∈ l₁, ∀ u, b.score = some u → u < s) ∧
      (∀ b ∈ l₂, ∀ u, b.score = some u → u ≤ s) := by
  obtain ⟨hconfig, bs, hfold⟩ :=
    loopGo_no_meet_result config oracle hnometa (config.max_retries + 1) 0
      ⟨[], none, none, 0, kwargs⟩ r (by unfold bestEq bestFold; rfl) hres
  rcases bestFold_spec r.attempts with ⟨hnone, _⟩ | ⟨l₁, a, l₂, s, hdec, hfold2, hsc, hpos, hb, ha⟩
  · rw [hnone] at hfold
    simp at hfold
  · rw [hfold2] at hfold
    simp only [Prod.mk.injEq, Option.some.injEq] at hfold
    exact ⟨l₁, a, l₂, s, hdec, hfold.1.symm, hfold.2.1.symm, hsc, hpos, hb, ha⟩

/-- C1 witness: the run with threshold 0.95 and scores 0.5 then 0.6
(`max_retries = 1`) returns a result, and `c1_best_selection` applies to it
with both hypotheses discharged. -/
theorem c1_best_selection_witness :
    ∃ r, create_with_vizeval_retry ⟨"key", "medical", 19/20, 1, false, []⟩ c1wOracle
        oneUserMsg = .result r ∧
      ∃ l₁ a l₂ s, r.attempts = l₁ ++ a :: l₂ ∧
        r.final_response = a.openai_response ∧
        r.final_evaluation = a.evaluation_response ∧
        a.score = some s ∧ 0 < s ∧
        (∀ b ∈ l₁, ∀ u, b.score = some u → u < s) ∧
        (∀ b ∈ l₂, ∀ u, b.score = some u → u ≤ s) := by
  have hno : ∀ i score feedback content, c1wOracle i = .ok score feedback content →
      scoreMeets score (⟨"key", "medical", 19/20, 1, false, []⟩ : VizevalConfig).threshold
        = false := by
    intro i score feedback content h
    unfold c1wOracle at h
    split at h <;>
      · injection h with h1 h2 h3
        subst h1
        norm_num [scoreMeets]
  rcases hres : create_with_vizeval_retry ⟨"key", "medical", 19/20, 1, false, []⟩ c1wOracle
      oneUserMsg with r | msg
  · exact ⟨r, rfl,
      c1_best_selection ⟨"key", "medical", 19/20, 1, false, []⟩ c1wOracle oneUserMsg r hno hres⟩
  · exfalso
    norm_num [create_with_vizeval_retry, loopGo, scoreMeets, updateBest, finishLoop,
      next_kwargs, adjust_parameters_for_retry, min_def, c1wOracle, oneUserMsg] at hres
    exact RunOutcome.noConfusion hres

/-! ## Stop at the first threshold-meeting attempt (C2) -/

theorem loopGo_first_meet (config : VizevalConfig) (oracle : Nat → AttemptOutcome)
    (sc : Option ℚ) (fb : Option String) (tx : String)
    (hsc : scoreMeets sc config.threshold = true) :
    ∀ k fuel attempt st,
      fuel + attempt = config.max_retries + 1 →
      attempt + k ≤ config.max_retries →
      (∀ i, attempt ≤ i → i < attempt + k →
        ∃ sc2 fb2 tx2, oracle i = .ok sc2 fb2 tx2 ∧ scoreMeets sc2 config.threshold = false) →
      oracle (attempt + k) = .ok sc fb tx →
      ∃ r, loopGo config oracle fuel attempt st = .result r ∧
        r.config = config ∧
        r.final_response = ⟨attempt + k, tx⟩ ∧
        r.final_evaluation = ⟨config.evaluator, sc, fb⟩ ∧
        r.attempts.length = st.attempts.length + k + 1 ∧
        r.attempts.getLast? = some ⟨attempt + k + 1, sc, fb, ⟨attempt + k, tx⟩,
          ⟨config.evaluator, sc, fb⟩⟩ ∧
        ∀ oracle2, (∀ i, i ≤ attempt + k → oracle2 i = oracle i) →
          loopGo config oracle2 fuel attempt st = .result r := by
  intro k
  induction k with
  | zero =>
    intro fuel attempt st hfuel hle hbefore hmeet
    simp only [Nat.add_zero] at hle hmeet ⊢
    obtain ⟨f, rfl⟩ : ∃ f, fuel = f + 1 := ⟨fuel - 1, by omega⟩
    rw [loopGo_ok config oracle f attempt st sc fb tx hmeet, if_pos hsc]
    refine ⟨_, rfl, rfl, rfl, rfl, by simp, by rw [List.getLast?_concat], ?_⟩
    intro oracle2 h2
    rw [loopGo_ok config oracle2 f attempt st sc fb tx
        (by rw [h2 attempt (le_refl attempt)]; exact hmeet),
      if_pos hsc]
  | succ k ih =>
    intro fuel attempt st hfuel hle hbefore hmeet
    obtain ⟨sc0, fb0, tx0, h0, hnot0⟩ := hbefore attempt (le_refl attempt) (by omega)
    obtain ⟨f, rfl⟩ : ∃ f, fuel = f + 1 := ⟨fuel - 1, by omega⟩
    rw [loopGo_ok config oracle f attempt st sc0 fb0 tx0 h0, if_neg (by simp [hnot0])]
    have harith : attempt + 1 + k = attempt + (k + 1) := by omega
    obtain ⟨r, hr, hconf, hfr, hfe, hlen, hlast, hstab⟩ :=
      ih f (attempt + 1) (contState config st attempt sc0 fb0 tx0)
        (by omega) (by omega)
        (fun i hi1 hi2 => hbefore i (by omega) (by omega))
        (by rw [harith]; exact hmeet)
    refine ⟨r, hr, hconf, ?_, hfe, ?_, ?_, ?_⟩
    · rw [hfr, harith]
    · rw [hlen, contState_attempts, List.length_append]
      simp
      omega
    · rw [hlast, harith]
    · intro oracle2 h2
      rw [loopGo_ok config oracle2 f attempt st sc0 fb0 tx0
          (by rw [h2 attempt (by omega)]; exact h0),
        if_neg (by simp [hnot0])]
      exact hstab oracle2 (fun i hi => h2 i (by omega))

/-- C2: when the first `k` attempts score below the threshold and attempt
index `k ≤ max_retries` returns a score meeting it, the loop stops exactly
there: that attempt's response and evaluation become `final_response` /
`final_evaluation`, `final_evaluation.score` meets the threshold, exactly
`k + 1` attempts are recorded with the meeting attempt last, and nothing
after index `k` is consulted (the result is unchanged under any oracle that
agrees up to `k` — no further provider or evaluator calls). -/
theorem c2_stop_at_first_meet (config : VizevalConfig) (oracle : Nat → AttemptOutcome)
    (kwargs : Kwargs) (k : Nat) (sc : Option ℚ) (fb : Option String) (tx : String)
    (hk : k ≤ config.max_retries)
    (hbefore : ∀ i, i < k → ∃ sc2 fb2 tx2, oracle i = .ok sc2 fb2 tx2 ∧
      scoreMeets sc2 config.threshold = false)
    (hmeet : oracle k = .ok sc fb tx)
    (hsc : scoreMeets sc config.threshold = true) :
    ∃ r, create_with_vizeval_retry config oracle kwargs = .result r ∧
      r.final_response = ⟨k, tx⟩ ∧
      r.final_evaluation = ⟨config.evaluator, sc, fb⟩ ∧
      scoreMeets r.final_evaluation.score config.threshold = true ∧
      r.total_attempts = k + 1 ∧
      r.attempts.getLast? = some ⟨k + 1, sc, fb, ⟨k, tx⟩, ⟨config.evaluator, sc, fb⟩⟩ ∧
      ∀ oracle2, (∀ i, i ≤ k → oracle2 i = oracle i) →
        create_with_vizeval_retry config oracle2 kwargs = .result r := by
  obtain ⟨r, hr, hconf, hfr, hfe, hlen, hlast, hstab⟩ :=
    loopGo_first_meet config oracle sc fb tx hsc k (config.max_retries + 1) 0
      ⟨[], none, none, 0, kwargs⟩ (by omega) (by omega)
      (fun i hi1 hi2 => hbefore i (by omega)) (by simpa using hmeet)
  refine ⟨r, hr, by simpa using hfr, hfe, ?_, ?_, by simpa using hlast, ?_⟩
  · rw [hfe]
    exact hsc
  · unfold VizevalResult.total_attempts
    simpa using hlen
  · intro oracle2 h2
    exact hstab oracle2 (fun i hi => h2 i (by omega))

/-- C2 witness: threshold 0.8, scores 0.5 then 0.85 — the loop stops at the
second attempt with that attempt as the final result. -/
theorem c2_stop_at_first_meet_witness :
    ∃ r, create_with_vizeval_retry ⟨"key", "medical", 4/5, 3, false, []⟩ c2wOracle oneUserMsg
        = .result r ∧
      r.final_response = ⟨1, "b"⟩ ∧
      r.final_evaluation = ⟨"medical", some (17/20), none⟩ ∧
      r.total_attempts = 2 := by
  obtain ⟨r, hr, hfr, hfe, hms, htot, hlast, hstab⟩ :=
    c2_stop_at_first_meet ⟨"key", "medical", 4/5, 3, false, []⟩ c2wOracle oneUserMsg 1
      (some (17/20)) none "b" (by decide)
      (by
        intro i hi
        have hi0 : i = 0 := by omega
        subst hi0
        exact ⟨some (1/2), none, "a", rfl, by norm_num [scoreMeets]⟩)
      rfl (by norm_num [scoreMeets])
  exact ⟨r, hr, hfr, hfe, htot⟩

/-! ## Error handling inside the loop (C4) -/

theorem loopGo_all_err (config : VizevalConfig) (oracle : Nat → AttemptOutcome)
    (herr : ∀ i, ∃ m, oracle i = .err m) :
    ∀ fuel attempt st, st.best_response = none → st.best_evaluation = none →
      ∃ m, loopGo config oracle fuel attempt st = .error m := by
  intro fuel
  induction fuel with
  | zero =>
    intro attempt st hbr hbe
    rw [loopGo_zero]
    unfold finishLoop
    rw [hbr, hbe]
    exact ⟨_, rfl⟩
  | succ fuel ih =>
    intro attempt st hbr hbe
    obtain ⟨m, hm⟩ := herr attempt
    rw [loopGo_err config oracle fuel attempt st m hm, if_neg (by simp [hbr])]
    by_cases hmax : (attempt == config.max_retries) = true
    · rw [if_pos hmax]
      exact ⟨_, rfl⟩
    · rw [if_neg hmax]
      exact ih (attempt + 1) st hbr hbe

/-- C4: error handling of the retry loop.  First, when attempt 1 (index 0)
scores a positive value below the threshold and attempt 2 (index 1) raises,
the loop stops early and returns attempt 1 as the result; the failed attempt
is not recorded, so exactly one attempt appears (`total_attempts = 1`).
Second, when every iteration raises (in particular a provider failure on the
only permitted attempt), the whole operation fails with an error and no
result aggregate is produced. -/
theorem c4_error_handling :
    (∀ (config : VizevalConfig) (oracle : Nat → AttemptOutcome) (kwargs : Kwargs)
        (s : ℚ) (fb : Option String) (tx m : String),
      1 ≤ config.max_retries →
      oracle 0 = .ok (some s) fb tx →
      0 < s →
      scoreMeets (some s) config.threshold = false →
      oracle 1 = .err m →
      ∃ r, create_with_vizeval_retry config oracle kwargs = .result r ∧
        r.total_attempts = 1 ∧
        r.attempts = [⟨1, some s, fb, ⟨0, tx⟩, ⟨config.evaluator, some s, fb⟩⟩] ∧
        r.final_response = ⟨0, tx⟩ ∧
        r.final_evaluation = ⟨config.evaluator, some s, fb⟩) ∧
    (∀ (config : VizevalConfig) (oracle : Nat → AttemptOutcome) (kwargs : Kwargs),
      (∀ i, ∃ m, oracle i = .err m) →
      ∃ m, create_with_vizeval_retry config oracle kwargs = .error m) := by
  constructor
  · intro config oracle kwargs s fb tx m hmr h0 hs hnot h1
    obtain ⟨d, hd⟩ : ∃ d, config.max_retries = d + 1 := ⟨config.max_retries - 1, by omega⟩
    unfold create_with_vizeval_retry
    rw [hd]
    rw [loopGo_ok config oracle (d + 1) 0 _ (some s) fb tx h0, if_neg (by simp [hnot])]
    have hcs : contState config ⟨[], none, none, 0, kwargs⟩ 0 (some s) fb tx =
        ⟨[⟨1, some s, fb, ⟨0, tx⟩, ⟨config.evaluator, some s, fb⟩⟩],
         some ⟨0, tx⟩, some ⟨config.evaluator, some s, fb⟩, s,
         next_kwargs kwargs tx (some s) 0⟩ := by
      unfold contState updateBest
      dsimp only
      rw [if_pos hs, if_pos (show 0 < config.max_retries by omega)]
      rfl
    rw [hcs]
    rw [loopGo_err config oracle d 1 _ m h1, if_pos (by rfl)]
    rw [finishLoop_ok config _ ⟨0, tx⟩ ⟨config.evaluator, some s, fb⟩ rfl rfl]
    exact ⟨_, rfl, rfl, rfl, rfl, rfl⟩
  · intro config oracle kwargs herr
    exact loopGo_all_err config oracle herr (config.max_retries + 1) 0
      ⟨[], none, none, 0, kwargs⟩ rfl rfl

/-- C4 witness: a concrete graceful-degradation run (score 0.6 then an
evaluator failure) and a concrete all-failures run (`max_retries = 0`,
provider raises). -/
theorem c4_error_handling_witness :
    (∃ r, create_with_vizeval_retry ⟨"key", "medical", 4/5, 1, false, []⟩
        (fun i => if i = 0 then .ok (some (3/5)) none "a" else .err "boom") oneUserMsg
        = .result r ∧
      r.total_attempts = 1 ∧
      r.attempts = [⟨1, some (3/5), none, ⟨0, "a"⟩, ⟨"medical", some (3/5), none⟩⟩] ∧
      r.final_response = ⟨0, "a"⟩ ∧
      r.final_evaluation = ⟨"medical", some (3/5), none⟩) ∧
    (∃ m, create_with_vizeval_retry ⟨"key", "medical", 4/5, 0, false, []⟩
        (fun _ => .err "down") oneUserMsg = .error m) := by
  constructor
  · exact c4_error_handling.1 ⟨"key", "medical", 4/5, 1, false, []⟩
      (fun i => if i = 0 then .ok (some (3/5)) none "a" else .err "boom") oneUserMsg
      (3/5) none "a" "boom" (by decide) rfl (by norm_num) (by norm_num [scoreMeets]) rfl
  · exact c4_error_handling.2 ⟨"key", "medical", 4/5, 0, false, []⟩
      (fun _ => .err "down") oneUserMsg (fun i => ⟨"down", rfl⟩)

/-! ## Attempt numbering (C9) -/

theorem finishLoop_attempts (config : VizevalConfig) (st : LoopState) (r : VizevalResult)
    (h : finishLoop config st = .result r) : r.attempts = st.attempts := by
  unfold finishLoop at h
  cases hbr : st.best_response with
  | none =>
    rw [hbr] at h
    cases hbe : st.best_evaluation <;> rw [hbe] at h <;> exact RunOutcome.noConfusion h
  | some resp =>
    cases hbe : st.best_evaluation with
    | none =>
      rw [hbr, hbe] at h
      exact RunOutcome.noConfusion h
    | some ev =>
      rw [hbr, hbe] at h
      injection h with h2
      subst h2
      rfl

theorem loopGo_nums_increasing (config : VizevalConfig) (oracle : Nat → AttemptOutcome) :
    ∀ fuel attempt st r,
      (∀ a ∈ st.attempts, a.attempt_number ≤ attempt) →
      (st.attempts.map RetryAttempt.attempt_number).Pairwise (· < ·) →
      loopGo config oracle fuel attempt st = .result r →
      (r.attempts.map RetryAttempt.attempt_number).Pairwise (· < ·) := by
  intro fuel
  induction fuel with
  | zero =>
    intro attempt st r hbound hpair hres
    rw [loopGo_zero] at hres
    rw [finishLoop_attempts config st r hres]
    exact hpair
  | succ fuel ih =>
    intro attempt st r hbound hpair hres
    cases horacle : oracle attempt with
    | err msg =>
      rw [loopGo_err config oracle fuel attempt st msg horacle] at hres
      by_cases hbr : st.best_response.isSome = true
      · rw [if_pos hbr] at hres
        rw [finishLoop_attempts config st r hres]
        exact hpair
      · rw [if_neg hbr] at hres
        by_cases hmax : (attempt == config.max_retries) = true
        · rw [if_pos hmax] at hres
          exact RunOutcome.noConfusion hres
        · rw [if_neg hmax] at hres
          exact ih (attempt + 1) st r
            (fun a ha => le_trans (hbound a ha) (Nat.le_succ attempt)) hpair hres
    | ok score feedback content =>
      rw [loopGo_ok config oracle fuel attempt st score feedback content horacle] at hres
      have hstep : ((st.attempts ++ [(⟨attempt + 1, score, feedback, ⟨attempt, content⟩,
          ⟨config.evaluator, score, feedback⟩⟩ : RetryAttempt)]).map
            RetryAttempt.attempt_number).Pairwise (· < ·) := by
        rw [List.map_append, List.pairwise_append]
        refine ⟨hpair, List.pairwise_singleton _ _, ?_⟩
        intro x hx y hy
        simp only [List.map_cons, List.map_nil, List.mem_singleton] at hy
        subst hy
        rw [List.mem_map] at hx
        obtain ⟨a, ha, rfl⟩ := hx
        exact Nat.lt_succ_of_le (hbound a ha)
      by_cases hm : scoreMeets score config.threshold = true
      · rw [if_pos hm] at hres
        injection hres with h2
        subst h2
        exact hstep
      · rw [if_neg hm] at hres
        apply ih (attempt + 1) _ r ?_ ?_ hres
        · intro a ha
          rw [contState_attempts] at ha
          rcases List.mem_append.mp ha with hmem | hmem
          · exact le_trans (hbound a hmem) (Nat.le_succ attempt)
          · rw [List.mem_singleton.mp hmem]
        · rw [contState_attempts]
          exact hstep

theorem loopGo_nums_range (config : VizevalConfig) (oracle : Nat → AttemptOutcome)
    (hok : ∀ i m, oracle i ≠ .err m) :
    ∀ fuel attempt st r,
      st.attempts.map RetryAttempt.attempt_number = List.range' 1 attempt →
      st.attempts.length = attempt →
      loopGo config oracle fuel attempt st = .result r →
      r.attempts.map RetryAttempt.attempt_number = List.range' 1 r.attempts.length := by
  intro fuel
  induction fuel with
  | zero =>
    intro attempt st r hmap hlen hres
    rw [loopGo_zero] at hres
    rw [finishLoop_attempts config st r hres, hmap, hlen]
  | succ fuel ih =>
    intro attempt st r hmap hlen hres
    cases horacle : oracle attempt with
    | err msg => exact absurd horacle (hok attempt msg)
    | ok score feedback content =>
      rw [loopGo_ok config oracle fuel attempt st score feedback content horacle] at hres
      have hmap2 : ((st.attempts ++ [(⟨attempt + 1, score, feedback, ⟨attempt, content⟩,
          ⟨config.evaluator, score, feedback⟩⟩ : RetryAttempt)]).map RetryAttempt.attempt_number) =
            List.range' 1 (attempt + 1) := by
        rw [List.map_append, hmap, List.range'_1_concat]
        simp [Nat.add_comm]
      have hlen2 : (st.attempts ++ [(⟨attempt + 1, score, feedback, ⟨attempt, content⟩,
          ⟨config.evaluator, score, feedback⟩⟩ : RetryAttempt)]).length = attempt + 1 := by
        simp [hlen]
      by_cases hm : scoreMeets score config.threshold = true
      · rw [if_pos hm] at hres
        injection hres with h2
        subst h2
        dsimp only
        rw [hmap2, hlen2]
      · rw [if_neg hm] at hres
        apply ih (attempt + 1) _ r ?_ ?_ hres
        · rw [contState_attempts]
          exact hmap2
        · rw [contState_attempts]
          exact hlen2

/-- C9 (amended): in every run that returns a result, the recorded attempt
numbers are 1-based and strictly increasing; they are additionally
sequential and gap-free (`attempts[i].attempt_number = i + 1`, i.e. the
number list equals `[1, …, total]`) whenever no loop iteration raised.  An
iteration that raises and continues consumes its index, leaving a gap (see
the counterexample). -/
theorem c9_attempt_numbers (config : VizevalConfig) (oracle : Nat → AttemptOutcome)
    (kwargs : Kwargs) (r : VizevalResult)
    (hres : create_with_vizeval_retry config oracle kwargs = .result r) :
    (r.attempts.map RetryAttempt.attempt_number).Pairwise (· < ·) ∧
    ((∀ i m, oracle i ≠ .err m) →
      r.attempts.map RetryAttempt.attempt_number = List.range' 1 r.attempts.length) := by
  constructor
  · exact loopGo_nums_increasing config oracle (config.max_retries + 1) 0
      ⟨[], none, none, 0, kwargs⟩ r (by simp) (by simp) hres
  · intro hok
    exact loopGo_nums_range config oracle hok (config.max_retries + 1) 0
      ⟨[], none, none, 0, kwargs⟩ r rfl rfl hres

/-- C9 witness: Scenario B's error-free run has strictly increasing, gap-free
attempt numbers. -/
theorem c9_attempt_numbers_witness :
    ∃ r, create_with_vizeval_retry scenarioB_config scenarioB_oracle oneUserMsg = .result r ∧
      (r.attempts.map RetryAttempt.attempt_number).Pairwise (· < ·) ∧
      r.attempts.map RetryAttempt.attempt_number = List.range' 1 r.attempts.length := by
  have hok : ∀ i m, scenarioB_oracle i ≠ .err m := by
    intro i m h
    unfold scenarioB_oracle at h
    split at h
    · exact AttemptOutcome.noConfusion h
    · split at h
      · exact AttemptOutcome.noConfusion h
      · exact AttemptOutcome.noConfusion h
  rcases hres : create_with_vizeval_retry scenarioB_config scenarioB_oracle oneUserMsg
      with r | msg
  · obtain ⟨h1, h2⟩ := c9_attempt_numbers scenarioB_config scenarioB_oracle oneUserMsg r hres
    exact ⟨r, rfl, h1, h2 hok⟩
  · exfalso
    norm_num [create_with_vizeval_retry, loopGo, scoreMeets, updateBest, finishLoop,
      next_kwargs, adjust_parameters_for_retry, min_def, scenarioB_config, scenarioB_oracle,
      oneUserMsg] at hres
    exact RunOutcome.noConfusion hres
